import Mathlib

/-!
# Verification of the Alpha Vantage investment-report pipeline

A shallow embedding of `src/model.py`.  The program is a sequential
orchestration: resolve company names to tickers, fetch price history and
company metadata, reduce each price series to a scalar performance score,
and feed the results through four role-specialised "agent" calls to an
external reasoning service, composing a final report.

External effects are modelled as explicit function-valued parameters
(an `Env` record): `yfinance` history/info/news fetches return
`Except`/outcome values (a raised Python exception is `.error`), and each
agent's `run` returns `Option String` (`none` models a falsy response;
`some c` models a response object whose `.content` is `c`).  Each pipeline
function additionally returns the list of agent calls it issued, so that
invocation counts are observable.  Python dicts keyed by symbol are
association lists with insert-or-update semantics;
`pandas.Series.pct_change` is modelled with an explicit leading `NaN`
(`Option ℚ`, `none` = NaN) and `.sum()` skips the `NaN`s, exactly as
pandas does.  Numeric-to-text rendering inside prompts is abstracted by a
fixed injective-enough rendering of `ℚ` (Python float repr is not
reproduced digit-for-digit; no claim depends on it).
-/

/-- Python dict semantics for string-keyed dicts built by `d[k] = v`:
update the value in place if the key is present, else append at the end
(insertion order preserved). -/
def dictInsert {α : Type} : List (String × α) → String → α → List (String × α)
  | [], k, v => [(k, v)]
  | p :: rest, k, v => if p.1 = k then (k, v) :: rest else p :: dictInsert rest k v

/-- Lookup in the association-list model of a Python dict. -/
def dictFind {α : Type} : List (String × α) → String → Option α
  | [], _ => none
  | p :: rest, k => if p.1 = k then some p.2 else dictFind rest k

/-- The key list of a dict, in insertion order. -/
def dictKeys {α : Type} (d : List (String × α)) : List String :=
  d.map Prod.fst

/-- `pandas.Series.pct_change` on the tail: for a running previous value
`prev` and remaining closes, each step yields `(y - prev) / prev`. -/
def pctChangeAux (prev : ℚ) : List ℚ → List (Option ℚ)
  | [] => []
  | y :: ys => some ((y - prev) / prev) :: pctChangeAux y ys

/-- `pandas.Series.pct_change`: the first element is `NaN` (`none`), the
`i`-th is `(close[i] - close[i-1]) / close[i-1]`. -/
def pctChange : List ℚ → List (Option ℚ)
  | [] => []
  | x :: xs => none :: pctChangeAux x xs

/-- `pandas.Series.sum` with its default `skipna=True`: `NaN` entries are
skipped; the sum of an all-`NaN` (or empty) series is `0`. -/
def nanSum (l : List (Option ℚ)) : ℚ :=
  (l.filterMap id).sum

/-- `hist['Close'].pct_change().sum()` from `compare_stocks`. -/
def pctChangeSum (closes : List ℚ) : ℚ :=
  nanSum (pctChange closes)

/-- The Performance Aggregator formula as the spec words it:
`score(series) = Σ_{i=1}^{n-1} (close[i] - close[i-1]) / close[i-1]`. -/
def specScore (close : List ℚ) : ℚ :=
  ∑ i in Finset.range (close.length - 1),
    (close.getD (i + 1) 0 - close.getD i 0) / close.getD i 0

/-- The per-symbol loop of `compare_stocks`, carrying the `data` dict.
A fetch exception (`.error`) or an empty history skips the symbol;
otherwise `data[symbol] = hist['Close'].pct_change().sum()`. -/
def compare_stocks_go (fetchHistory : String → Except String (List ℚ)) :
    List String → List (String × ℚ) → List (String × ℚ)
  | [], data => data
  | s :: rest, data =>
    match fetchHistory s with
    | .error _ => compare_stocks_go fetchHistory rest data
    | .ok hist =>
      if hist.isEmpty then compare_stocks_go fetchHistory rest data
      else compare_stocks_go fetchHistory rest (dictInsert data s (pctChangeSum hist))

/-- `compare_stocks(symbols)`: fold the per-symbol loop starting from the
empty dict. -/
def compare_stocks (fetchHistory : String → Except String (List ℚ))
    (symbols : List String) : List (String × ℚ) :=
  compare_stocks_go fetchHistory symbols []

example : compare_stocks (fun _ => .ok [100, 110, 121]) ["AAPL"] =
    [("AAPL", 1/5)] := by
  norm_num [compare_stocks, compare_stocks_go, pctChangeSum, nanSum, pctChange,
    pctChangeAux, dictInsert, List.filterMap_cons, List.filterMap_nil]

example : compare_stocks (fun _ => .ok [100]) ["A"] = [("A", 0)] := by
  norm_num [compare_stocks, compare_stocks_go, pctChangeSum, nanSum, pctChange,
    pctChangeAux, dictInsert, List.filterMap_cons, List.filterMap_nil]

example : specScore [100, 110, 121] = 1/5 := by
  simp [specScore, Finset.sum_range_succ]
  norm_num

lemma dictFind_insert_self {α : Type} (d : List (String × α)) (k : String) (v : α) :
    dictFind (dictInsert d k v) k = some v := by
  induction d with
  | nil => simp [dictInsert, dictFind]
  | cons p rest ih =>
    by_cases h : p.1 = k
    · simp [dictInsert, dictFind, h]
    · simp [dictInsert, dictFind, h, ih]

lemma dictFind_insert_ne {α : Type} (d : List (String × α)) (k k' : String) (v : α)
    (h : k' ≠ k) : dictFind (dictInsert d k v) k' = dictFind d k' := by
  have hk : ¬k = k' := fun hh => h hh.symm
  induction d with
  | nil => simp [dictInsert, dictFind, hk]
  | cons p rest ih =>
    by_cases hp : p.1 = k
    · simp [dictInsert, dictFind, hp, hk]
    · simp [dictInsert, dictFind, hp, ih]

lemma mem_dictKeys_insert {α : Type} (d : List (String × α)) (k k' : String) (v : α) :
    k' ∈ dictKeys (dictInsert d k v) ↔ k' = k ∨ k' ∈ dictKeys d := by
  induction d with
  | nil => simp [dictInsert, dictKeys]
  | cons p rest ih =>
    by_cases hp : p.1 = k
    · simp [dictInsert, dictKeys, hp]
    · simp [dictInsert, dictKeys, hp] at ih ⊢
      tauto

lemma nodup_dictKeys_insert {α : Type} (d : List (String × α)) (k : String) (v : α)
    (h : (dictKeys d).Nodup) : (dictKeys (dictInsert d k v)).Nodup := by
  induction d with
  | nil => simp [dictInsert, dictKeys]
  | cons p rest ih =>
    rw [dictKeys, List.map_cons, List.nodup_cons] at h
    by_cases hp : p.1 = k
    · rw [dictInsert, if_pos hp, dictKeys, List.map_cons, List.nodup_cons]
      exact ⟨hp ▸ h.1, h.2⟩
    · rw [dictInsert, if_neg hp, dictKeys, List.map_cons, List.nodup_cons]
      constructor
      · intro hmem
        rcases (mem_dictKeys_insert rest k p.1 v).mp hmem with hh | hh
        · exact hp hh
        · exact h.1 hh
      · exact ih h.2

lemma pctChangeSum_nil : pctChangeSum [] = 0 := rfl

lemma pctChangeSum_single (x : ℚ) : pctChangeSum [x] = 0 := rfl

lemma pctChangeSum_cons₂ (x y : ℚ) (t : List ℚ) :
    pctChangeSum (x :: y :: t) = (y - x) / x + pctChangeSum (y :: t) := by
  simp [pctChangeSum, nanSum, pctChange, pctChangeAux, List.filterMap_cons]

lemma specScore_cons₂ (x y : ℚ) (t : List ℚ) :
    specScore (x :: y :: t) = (y - x) / x + specScore (y :: t) := by
  simp only [specScore, List.length_cons, Nat.add_sub_cancel]
  rw [Finset.sum_range_succ']
  simp only [List.getD_cons_succ, List.getD_cons_zero]
  ring

/-- The pandas computation `pct_change().sum()` agrees with the spec's
indexed formula `Σ_{i=1}^{n-1} (close[i] - close[i-1]) / close[i-1]` on
every series (for length `< 2` both are `0`). -/
lemma pctChangeSum_eq_specScore (c : List ℚ) : pctChangeSum c = specScore c := by
  induction c with
  | nil => simp [pctChangeSum, nanSum, pctChange, specScore]
  | cons x xs ih =>
    cases xs with
    | nil => simp [pctChangeSum_single, specScore]
    | cons y t => rw [pctChangeSum_cons₂, specScore_cons₂, ih]

/-- If the fetch for `s` yields no data (an exception or an empty
history), no iteration of the `compare_stocks` loop ever inserts `s`. -/
lemma compare_stocks_go_find_skip (fetch : String → Except String (List ℚ))
    (s : String) (hs : ∀ hist, fetch s = .ok hist → hist = []) :
    ∀ (l : List String) (acc : List (String × ℚ)),
      dictFind (compare_stocks_go fetch l acc) s = dictFind acc s := by
  intro l
  induction l with
  | nil => intro acc; rfl
  | cons t rest ih =>
    intro acc
    simp only [compare_stocks_go]
    cases hft : fetch t with
    | error e => exact ih acc
    | ok hist =>
      dsimp only
      by_cases hemp : hist.isEmpty = true
      · rw [if_pos hemp]
        exact ih acc
      · rw [if_neg hemp, ih, dictFind_insert_ne]
        intro hts
        rw [← hts] at hft
        exact hemp (by simp [hs hist hft])

/-- If the fetch for `s` yields a fixed nonempty history, the
`compare_stocks` loop maps `s` to `pct_change().sum()` of that history as
soon as `s` occurs in the remaining symbols (or is already so mapped). -/
lemma compare_stocks_go_find_found (fetch : String → Except String (List ℚ))
    (s : String) (hist : List ℚ) (hfs : fetch s = .ok hist) (hne : hist ≠ []) :
    ∀ (l : List String) (acc : List (String × ℚ)),
      (s ∈ l ∨ dictFind acc s = some (pctChangeSum hist)) →
      dictFind (compare_stocks_go fetch l acc) s = some (pctChangeSum hist) := by
  intro l
  induction l with
  | nil =>
    intro acc h
    rcases h with h | h
    · simp at h
    · exact h
  | cons t rest ih =>
    intro acc h
    simp only [compare_stocks_go]
    cases hft : fetch t with
    | error e =>
      apply ih
      rcases h with h | h
      · rcases List.mem_cons.mp h with rfl | h
        · rw [hfs] at hft; cases hft
        · exact Or.inl h
      · exact Or.inr h
    | ok hist' =>
      dsimp only
      by_cases hemp : hist'.isEmpty = true
      · rw [if_pos hemp]
        apply ih
        rcases h with h | h
        · rcases List.mem_cons.mp h with rfl | h
          · rw [hfs] at hft
            cases hft
            exact absurd (List.isEmpty_iff.mp hemp) hne
          · exact Or.inl h
        · exact Or.inr h
      · rw [if_neg hemp]
        apply ih
        by_cases hts : t = s
        · subst hts
          rw [hfs] at hft
          cases hft
          exact Or.inr (dictFind_insert_self acc t (pctChangeSum hist))
        · rcases h with h | h
          · rcases List.mem_cons.mp h with rfl | h
            · exact absurd rfl hts
            · exact Or.inl h
          · exact Or.inr (by rw [dictFind_insert_ne _ _ _ _ (fun hh => hts hh.symm)]; exact h)

lemma compare_stocks_go_nodup (fetch : String → Except String (List ℚ)) :
    ∀ (l : List String) (acc : List (String × ℚ)),
      (dictKeys acc).Nodup → (dictKeys (compare_stocks_go fetch l acc)).Nodup := by
  intro l
  induction l with
  | nil => intro acc h; exact h
  | cons t rest ih =>
    intro acc h
    simp only [compare_stocks_go]
    cases hft : fetch t with
    | error e => exact ih acc h
    | ok hist =>
      dsimp only
      by_cases hemp : hist.isEmpty = true
      · rw [if_pos hemp]; exact ih acc h
      · rw [if_neg hemp]; exact ih _ (nodup_dictKeys_insert acc t _ h)

lemma compare_stocks_go_keys_sub (fetch : String → Except String (List ℚ)) :
    ∀ (l : List String) (acc : List (String × ℚ)) (k : String),
      k ∈ dictKeys (compare_stocks_go fetch l acc) → k ∈ dictKeys acc ∨ k ∈ l := by
  intro l
  induction l with
  | nil => intro acc k h; exact Or.inl h
  | cons t rest ih =>
    intro acc k h
    simp only [compare_stocks_go] at h
    cases hft : fetch t with
    | error e =>
      rw [hft] at h
      dsimp only at h
      rcases ih acc k h with h | h
      · exact Or.inl h
      · exact Or.inr (List.mem_cons_of_mem _ h)
    | ok hist =>
      rw [hft] at h
      dsimp only at h
      by_cases hemp : hist.isEmpty = true
      · rw [if_pos hemp] at h
        rcases ih acc k h with h | h
        · exact Or.inl h
        · exact Or.inr (List.mem_cons_of_mem _ h)
      · rw [if_neg hemp] at h
        rcases ih _ k h with h | h
        · rcases (mem_dictKeys_insert acc t k _).mp h with rfl | h
          · exact Or.inr (List.mem_cons_self _ _)
          · exact Or.inl h
        · exact Or.inr (List.mem_cons_of_mem _ h)

/-- C1: for every price series of length `n ≥ 2` with nonzero closing
prices, the performance score computed by `compare_stocks` for that
symbol is the arithmetic sum of simple period-over-period percentage
changes `Σ_{i=1}^{n-1} (close[i] - close[i-1]) / close[i-1]`. -/
theorem C1_compare_stocks_score_is_sum_of_pct_changes
    (fetch : String → Except String (List ℚ)) (symbols : List String)
    (s : String) (closes : List ℚ) (hmem : s ∈ symbols)
    (hfs : fetch s = .ok closes) (hlen : 2 ≤ closes.length)
    (hnz : ∀ c ∈ closes, c ≠ 0) :
    dictFind (compare_stocks fetch symbols) s = some (specScore closes) := by
  have hne : closes ≠ [] := by
    intro hh
    rw [hh] at hlen
    simp at hlen
  rw [← pctChangeSum_eq_specScore]
  exact compare_stocks_go_find_found fetch s closes hfs hne symbols [] (Or.inl hmem)

/-- C1 witness: for the series `[100, 110, 121]` the score is
`0.10 + 0.10 = 0.20`. -/
theorem C1_witness :
    dictFind (compare_stocks (fun _ => .ok [100, 110, 121]) ["AAPL"]) "AAPL" =
      some (specScore [100, 110, 121]) ∧ specScore [100, 110, 121] = 1/5 := by
  constructor
  · exact C1_compare_stocks_score_is_sum_of_pct_changes _ ["AAPL"] "AAPL"
      [100, 110, 121] (by simp) rfl (by simp) (by norm_num)
  · rw [← pctChangeSum_eq_specScore]
    norm_num [pctChangeSum, nanSum, pctChange, pctChangeAux, List.filterMap_cons]

/-- C2 counterexample: a one-point history `[100]` is not empty, so
`compare_stocks` does NOT exclude the symbol; `pct_change()` is a single
`NaN` and `.sum()` of it is `0`, so the symbol appears with score `0` —
refuting the claim that every history of fewer than 2 points is
excluded. -/
theorem C2_counterexample :
    dictFind (compare_stocks (fun _ => .ok [100]) ["AAPL"]) "AAPL" = some 0 := by
  norm_num [compare_stocks, compare_stocks_go, pctChangeSum, nanSum, pctChange,
    pctChangeAux, dictInsert, dictFind]

/-- C2 (amended): a symbol whose fetch yields an empty history (or
raises) is excluded from the mapping, but a symbol with a one-point
history is included with a defaulted score of `0`. -/
theorem C2_empty_history_excluded_one_point_zero :
    (∀ (fetch : String → Except String (List ℚ)) (symbols : List String)
        (s : String), fetch s = .ok [] →
        dictFind (compare_stocks fetch symbols) s = none) ∧
    (∀ (fetch : String → Except String (List ℚ)) (symbols : List String)
        (s e : String), fetch s = .error e →
        dictFind (compare_stocks fetch symbols) s = none) ∧
    (∀ (fetch : String → Except String (List ℚ)) (symbols : List String)
        (s : String) (c : ℚ), s ∈ symbols → fetch s = .ok [c] →
        dictFind (compare_stocks fetch symbols) s = some 0) := by
  refine ⟨?_, ?_, ?_⟩
  · intro fetch symbols s h
    rw [compare_stocks,
      compare_stocks_go_find_skip fetch s
        (fun hist hh => by rw [h] at hh; cases hh; rfl)]
    rfl
  · intro fetch symbols s e h
    rw [compare_stocks,
      compare_stocks_go_find_skip fetch s
        (fun hist hh => by rw [h] at hh; cases hh)]
    rfl
  · intro fetch symbols s c hmem h
    have hf := compare_stocks_go_find_found fetch s [c] h (by simp) symbols []
      (Or.inl hmem)
    rw [compare_stocks, hf, pctChangeSum_single]

/-- C2 witness: the amended statement at concrete inputs — empty history
and raising fetch both excluded, one-point history mapped to `0`. -/
theorem C2_witness :
    dictFind (compare_stocks (fun _ => .ok []) ["A"]) "A" = none ∧
    dictFind (compare_stocks (fun _ => .error "boom") ["A"]) "A" = none ∧
    dictFind (compare_stocks (fun _ => .ok [7]) ["A"]) "A" = some 0 :=
  ⟨C2_empty_history_excluded_one_point_zero.1 _ ["A"] "A" rfl,
   C2_empty_history_excluded_one_point_zero.2.1 _ ["A"] "A" "boom" rfl,
   C2_empty_history_excluded_one_point_zero.2.2 _ ["A"] "A" 7 (by simp) rfl⟩

/-- C10: `compare_stocks` is total over any symbol list (it is a plain
function in this embedding: every per-symbol fetch failure is a skipped
branch, never a propagated error), and the returned mapping has distinct
keys, all drawn from the input symbols. -/
theorem C10_compare_stocks_total_distinct_keys
    (fetch : String → Except String (List ℚ)) (symbols : List String) :
    (dictKeys (compare_stocks fetch symbols)).Nodup ∧
    ∀ k ∈ dictKeys (compare_stocks fetch symbols), k ∈ symbols := by
  constructor
  · exact compare_stocks_go_nodup fetch symbols [] (by simp [dictKeys])
  · intro k hk
    rcases compare_stocks_go_keys_sub fetch symbols [] k hk with h | h
    · simp [dictKeys] at h
    · exact h

/-- C10 witness: a duplicated input symbol still yields a single entry. -/
theorem C10_witness :
    (dictKeys (compare_stocks (fun _ => .ok [1, 2]) ["A", "A"])).Nodup ∧
    "A" ∈ ["A", "A"] := by
  have h := C10_compare_stocks_total_distinct_keys (fun _ => .ok [1, 2]) ["A", "A"]
  refine ⟨h.1, h.2 "A" ?_⟩
  norm_num [compare_stocks, compare_stocks_go, dictInsert, dictKeys,
    pctChangeSum, nanSum, pctChange, pctChangeAux, List.filterMap_cons]

/-- The raw `stock.info` mapping of yfinance, restricted to the four keys
`get_company_info` reads; `none` models an absent key.  Values are kept
as already-rendered text (the market cap number's exact float rendering
is abstracted). -/
structure RawInfo where
  longName : Option String
  sector : Option String
  marketCap : Option String
  longBusinessSummary : Option String

/-- The dict built by `get_company_info`, each field defaulted to
`"N/A"`. -/
structure CompanyInfo where
  name : String
  sector : String
  market_cap : String
  summary : String

/-- Outcome of accessing `stock.news` for a symbol: a list of (opaque)
news records, an `AttributeError` (the one exception type
`get_company_news` catches), or any other raised exception. -/
inductive NewsResult where
  | items (news : List String)
  | attrError
  | failure (msg : String)

/-- One delegated call to the external reasoning service, tagged by which
agent issued it. -/
inductive AgentCall where
  | market_analyst (prompt : String)
  | company_researcher (prompt : String)
  | stock_strategist (prompt : String)
  | team_lead (prompt : String)

/-- The external world: the yfinance fetches (an `Except.error` is a
raised Python exception) and the four agents' `run` (`none` is a falsy
response; `some c` a response whose `.content` is `c`).  Each agent is a
function of the full prompt text, so identical prompts get identical
responses within one `Env`. -/
structure Env where
  history : String → Except String (List ℚ)
  info : String → Except String RawInfo
  news : String → NewsResult
  market_analyst : String → Option String
  company_researcher : String → Option String
  stock_strategist : String → Option String
  team_lead : String → Option String

/-- Python `repr` of the performance dict as interpolated into the
Market Analyst prompt (numeric rendering via `ℚ`'s `toString`). -/
def renderPerf (d : List (String × ℚ)) : String :=
  "\x7b" ++
    String.intercalate ", "
      (d.map fun p => "\x27" ++ p.1 ++ "\x27: " ++ toString p.2) ++
    "\x7d"

/-- Python `repr` of a string-valued dict as interpolated into the
Stock Strategist prompt. -/
def renderStrDict (d : List (String × String)) : String :=
  "\x7b" ++
    String.intercalate ", "
      (d.map fun p => "\x27" ++ p.1 ++ "\x27: \x27" ++ p.2 ++ "\x27") ++
    "\x7d"

/-- Python `repr` of a string list as interpolated into prompts. -/
def renderStrList (l : List String) : String :=
  "[" ++ String.intercalate ", " (l.map fun x => "\x27" ++ x ++ "\x27") ++ "]"

/-- The f-string passed to `market_analyst.run`. -/
def marketPrompt (performance_data : List (String × ℚ)) : String :=
  "Compare these stock performances: " ++ renderPerf performance_data

/-- The f-string passed to `company_researcher.run`. -/
def researcherPrompt (info : CompanyInfo) (news : List String) : String :=
  "Provide an analysis for " ++ info.name ++ " in the " ++ info.sector ++
    " sector.\nMarket Cap: " ++ info.market_cap ++ "\nSummary: " ++
    info.summary ++ "\nLatest News: " ++ renderStrList news

/-- The f-string passed to `stock_strategist.run`. -/
def strategistPrompt (market_analysis : String)
    (data : List (String × String)) : String :=
  "Based on the market analysis: " ++ market_analysis ++ ", and company news " ++
    renderStrDict data ++ " which stocks would you recommend for investment?"

/-- The f-string passed to `team_lead.run`. -/
def teamLeadPrompt (market_analysis : String) (company_analyses : List String)
    (stock_recommendations : String) : String :=
  "Market Analysis:\n" ++ market_analysis ++ "\n\nCompany Analyses:\n" ++
    renderStrList company_analyses ++ "\n\nStock Recommendations:\n" ++
    stock_recommendations ++
    "\n\nProvide the full analysis of each stock with Fundamentals and market news. Generate a final ranked list in ascending order on which should I buy."

/-- `get_market_analysis(symbols)`: short-circuits on an empty
performance dict, returns the sentinel on a falsy analyst response,
else the response content.  The second component is the list of
reasoning-service calls issued.  This stage cannot raise. -/
def get_market_analysis (env : Env) (symbols : List String) :
    String × List AgentCall :=
  let performance_data := compare_stocks env.history symbols
  if performance_data.isEmpty then
    ("No valid stock data found for the given symbols.", [])
  else
    let prompt := marketPrompt performance_data
    match env.market_analyst prompt with
    | none => ("No analysis report generated.", [.market_analyst prompt])
    | some content => (content, [.market_analyst prompt])

/-- `get_company_info(symbol)`: reads `stock.info` (which may raise) and
defaults each of the four fields to `"N/A"`. -/
def get_company_info (env : Env) (symbol : String) :
    Except String CompanyInfo :=
  (env.info symbol).map fun raw =>
    { name := raw.longName.getD "N/A"
      sector := raw.sector.getD "N/A"
      market_cap := raw.marketCap.getD "N/A"
      summary := raw.longBusinessSummary.getD "N/A" }

/-- `get_company_news(symbol)`: takes the latest 5 articles; catches
`AttributeError` (returning `[]`) and nothing else. -/
def get_company_news (env : Env) (symbol : String) :
    Except String (List String) :=
  match env.news symbol with
  | .items news => .ok (news.take 5)
  | .attrError => .ok []
  | .failure msg => .error msg

/-- `get_company_analysis(symbol)`: fetches info and news (either fetch
may raise), issues one Company Researcher call, and accesses
`response.content` with no falsy check — a falsy response is a raised
`AttributeError`. -/
def get_company_analysis (env : Env) (symbol : String) :
    Except String String × List AgentCall :=
  match get_company_info env symbol with
  | .error e => (.error e, [])
  | .ok info =>
    match get_company_news env symbol with
    | .error e => (.error e, [])
    | .ok news =>
      let prompt := researcherPrompt info news
      match env.company_researcher prompt with
      | none =>
        (.error "AttributeError: NoneType object has no attribute content",
         [.company_researcher prompt])
      | some content => (.ok content, [.company_researcher prompt])

/-- The list comprehension
`[get_company_analysis(symbol) for symbol in symbols]` in
`get_final_investment_report`: sequential, aborts at the first raised
exception. -/
def company_analyses_list (env : Env) :
    List String → Except String (List String) × List AgentCall
  | [] => (.ok [], [])
  | s :: rest =>
    match get_company_analysis env s with
    | (.error e, t) => (.error e, t)
    | (.ok a, t) =>
      match company_analyses_list env rest with
      | (.error e, ts) => (.error e, t ++ ts)
      | (.ok rs, ts) => (.ok (a :: rs), t ++ ts)

/-- The `data[symbol] = get_company_analysis(symbol)` loop in
`get_stock_recommendations`: builds a dict, aborts at the first raised
exception. -/
def recommendations_data_loop (env : Env) (acc : List (String × String)) :
    List String → Except String (List (String × String)) × List AgentCall
  | [] => (.ok acc, [])
  | s :: rest =>
    match get_company_analysis env s with
    | (.error e, t) => (.error e, t)
    | (.ok a, t) =>
      match recommendations_data_loop env (dictInsert acc s a) rest with
      | (r, ts) => (r, t ++ ts)

/-- `get_stock_recommendations(symbols)`: runs `get_market_analysis`
again, re-runs `get_company_analysis` for every symbol into a dict, then
issues one Stock Strategist call whose `.content` is accessed with no
falsy check. -/
def get_stock_recommendations (env : Env) (symbols : List String) :
    Except String String × List AgentCall :=
  let ma := get_market_analysis env symbols
  match recommendations_data_loop env [] symbols with
  | (.error e, t2) => (.error e, ma.2 ++ t2)
  | (.ok data, t2) =>
    let prompt := strategistPrompt ma.1 data
    match env.stock_strategist prompt with
    | none =>
      (.error "AttributeError: NoneType object has no attribute content",
       ma.2 ++ t2 ++ [.stock_strategist prompt])
    | some content => (.ok content, ma.2 ++ t2 ++ [.stock_strategist prompt])

/-- `get_final_investment_report(symbols)`: market analysis, the
per-symbol company-analysis comprehension, `get_stock_recommendations`,
then one Team Lead call whose `.content` is accessed with no falsy
check. -/
def get_final_investment_report (env : Env) (symbols : List String) :
    Except String String × List AgentCall :=
  let ma := get_market_analysis env symbols
  match company_analyses_list env symbols with
  | (.error e, t2) => (.error e, ma.2 ++ t2)
  | (.ok company_analyses, t2) =>
    match get_stock_recommendations env symbols with
    | (.error e, t3) => (.error e, ma.2 ++ t2 ++ t3)
    | (.ok stock_recommendations, t3) =>
      let prompt := teamLeadPrompt ma.1 company_analyses stock_recommendations
      match env.team_lead prompt with
      | none =>
        (.error "AttributeError: NoneType object has no attribute content",
         ma.2 ++ t2 ++ t3 ++ [.team_lead prompt])
      | some content =>
        (.ok content, ma.2 ++ t2 ++ t3 ++ [.team_lead prompt])

/-- Number of Company Researcher calls in a trace. -/
def countResearcher (t : List AgentCall) : Nat :=
  (t.filter fun c => match c with
    | .company_researcher _ => true
    | _ => false).length

/-- Number of Stock Strategist calls in a trace. -/
def countStrategist (t : List AgentCall) : Nat :=
  (t.filter fun c => match c with
    | .stock_strategist _ => true
    | _ => false).length

/-- Number of Team Lead calls in a trace. -/
def countTeamLead (t : List AgentCall) : Nat :=
  (t.filter fun c => match c with
    | .team_lead _ => true
    | _ => false).length

/-- Number of Market Analyst calls in a trace. -/
def countMarketAnalyst (t : List AgentCall) : Nat :=
  (t.filter fun c => match c with
    | .market_analyst _ => true
    | _ => false).length

lemma compare_stocks_go_all_empty (fetch : String → Except String (List ℚ)) :
    ∀ (l : List String) (acc : List (String × ℚ)),
      (∀ s ∈ l, fetch s = .ok []) → compare_stocks_go fetch l acc = acc := by
  intro l
  induction l with
  | nil => intro acc _; rfl
  | cons t rest ih =>
    intro acc h
    simp only [compare_stocks_go]
    rw [h t (List.mem_cons_self t rest)]
    dsimp only
    rw [if_pos (show ([] : List ℚ).isEmpty = true from rfl)]
    exact ih acc fun s hs => h s (List.mem_cons_of_mem _ hs)

/-- A concrete environment where every fetch succeeds and every agent
answers; used to instantiate witnesses. -/
def envOk : Env where
  history := fun _ => .ok [100, 110, 121]
  info := fun _ => .ok ⟨some "Apple Inc.", some "Technology",
    some "3000000000000", some "Designs consumer electronics."⟩
  news := fun _ => .items ["headline1", "headline2"]
  market_analyst := fun p => some ("MA:" ++ p)
  company_researcher := fun p => some ("CR:" ++ p)
  stock_strategist := fun p => some ("SS:" ++ p)
  team_lead := fun p => some ("TL:" ++ p)

/-- C6: whenever the performance mapping produced by `compare_stocks` is
empty (for instance when every history fetch is empty),
`get_market_analysis` returns the fixed string
`"No valid stock data found for the given symbols."` and issues zero
reasoning-service calls. -/
theorem C6_empty_performance_short_circuits (env : Env) (symbols : List String) :
    ((∀ s ∈ symbols, env.history s = .ok []) →
      compare_stocks env.history symbols = []) ∧
    (compare_stocks env.history symbols = [] →
      get_market_analysis env symbols =
        ("No valid stock data found for the given symbols.", [])) := by
  constructor
  · intro h
    exact compare_stocks_go_all_empty env.history symbols [] h
  · intro h
    simp only [get_market_analysis, h]
    rfl

/-- C6 witness: with every history fetch empty, the sentinel is returned
with an empty call trace. -/
theorem C6_witness :
    compare_stocks (Env.history { envOk with history := fun _ => .ok [] })
      ["AAPL", "TSLA"] = [] ∧
    get_market_analysis { envOk with history := fun _ => .ok [] }
      ["AAPL", "TSLA"] =
      ("No valid stock data found for the given symbols.", []) := by
  have h := C6_empty_performance_short_circuits
    { envOk with history := fun _ => .ok [] } ["AAPL", "TSLA"]
  have h1 := h.1 fun s _ => rfl
  exact ⟨h1, h.2 h1⟩

/-- C4: an empty/falsy reasoning response is handled only at the Market
Analyst stage, which returns the sentinel
`"No analysis report generated."`; at the company-analysis,
recommendation and final-report stages, `.content` is accessed with no
check, so a falsy response is an unrecoverable error for that run. -/
theorem C4_falsy_response_handled_only_at_market_analyst :
    (∀ (env : Env) (symbols : List String),
      compare_stocks env.history symbols ≠ [] →
      env.market_analyst
          (marketPrompt (compare_stocks env.history symbols)) = none →
      get_market_analysis env symbols =
        ("No analysis report generated.",
         [.market_analyst
            (marketPrompt (compare_stocks env.history symbols))])) ∧
    (∀ (env : Env) (s : String) (info : CompanyInfo) (news : List String),
      get_company_info env s = .ok info →
      get_company_news env s = .ok news →
      env.company_researcher (researcherPrompt info news) = none →
      (get_company_analysis env s).1 =
        .error "AttributeError: NoneType object has no attribute content") ∧
    (∀ (env : Env) (symbols : List String) (data : List (String × String))
        (t2 : List AgentCall),
      recommendations_data_loop env [] symbols = (.ok data, t2) →
      env.stock_strategist
          (strategistPrompt (get_market_analysis env symbols).1 data) = none →
      (get_stock_recommendations env symbols).1 =
        .error "AttributeError: NoneType object has no attribute content") ∧
    (∀ (env : Env) (symbols : List String) (cas : List String)
        (t2 : List AgentCall) (recs : String) (t3 : List AgentCall),
      company_analyses_list env symbols = (.ok cas, t2) →
      get_stock_recommendations env symbols = (.ok recs, t3) →
      env.team_lead
          (teamLeadPrompt (get_market_analysis env symbols).1 cas recs) = none →
      (get_final_investment_report env symbols).1 =
        .error "AttributeError: NoneType object has no attribute content") := by
  refine ⟨?_, ?_, ?_, ?_⟩
  · intro env symbols hne hnone
    simp only [get_market_analysis]
    rw [if_neg (by simpa [List.isEmpty_iff] using hne), hnone]
  · intro env s info news hinfo hnews hnone
    simp only [get_company_analysis]
    rw [hinfo]
    dsimp only
    rw [hnews]
    dsimp only
    rw [hnone]
  · intro env symbols data t2 hloop hnone
    simp only [get_stock_recommendations]
    rw [hloop]
    dsimp only
    rw [hnone]
  · intro env symbols cas t2 recs t3 hcas hrecs hnone
    simp only [get_final_investment_report]
    rw [hcas]
    dsimp only
    rw [hrecs]
    dsimp only
    rw [hnone]

/-- C4 witness: each stage instantiated with an environment whose
corresponding agent answers falsy — the Market Analyst stage returns its
sentinel; the other three stages fault. -/
theorem C4_witness :
    (get_market_analysis { envOk with market_analyst := fun _ => none }
        ["AAPL"]).1 = "No analysis report generated." ∧
    (get_company_analysis { envOk with company_researcher := fun _ => none }
        "AAPL").1 =
      .error "AttributeError: NoneType object has no attribute content" ∧
    (get_stock_recommendations { envOk with stock_strategist := fun _ => none }
        ["AAPL"]).1 =
      .error "AttributeError: NoneType object has no attribute content" ∧
    (get_final_investment_report { envOk with team_lead := fun _ => none }
        ["AAPL"]).1 =
      .error "AttributeError: NoneType object has no attribute content" := by
  refine ⟨?_, ?_, ?_, ?_⟩
  · rw [congrArg Prod.fst
      (C4_falsy_response_handled_only_at_market_analyst.1
        { envOk with market_analyst := fun _ => none } ["AAPL"] ?_ rfl)]
    norm_num [compare_stocks, compare_stocks_go, envOk, dictInsert]
  · exact C4_falsy_response_handled_only_at_market_analyst.2.1
      { envOk with company_researcher := fun _ => none } "AAPL" _ _ rfl rfl rfl
  · exact C4_falsy_response_handled_only_at_market_analyst.2.2.1
      { envOk with stock_strategist := fun _ => none } ["AAPL"] _ _ rfl rfl
  · exact C4_falsy_response_handled_only_at_market_analyst.2.2.2
      { envOk with team_lead := fun _ => none } ["AAPL"] _ _ _ _ rfl rfl rfl

/-- C8: the pipeline is deterministic — two runs over the same ticker
list in which every external fetch and every reasoning-service call
return identical responses produce identical composed reports (and
identical call traces). -/
theorem C8_pipeline_deterministic (e1 e2 : Env) (symbols : List String)
    (h1 : e1.history = e2.history) (h2 : e1.info = e2.info)
    (h3 : e1.news = e2.news) (h4 : e1.market_analyst = e2.market_analyst)
    (h5 : e1.company_researcher = e2.company_researcher)
    (h6 : e1.stock_strategist = e2.stock_strategist)
    (h7 : e1.team_lead = e2.team_lead) :
    get_final_investment_report e1 symbols =
      get_final_investment_report e2 symbols := by
  have he : e1 = e2 := by
    cases e1
    cases e2
    simp_all
  rw [he]

/-- C8 witness: the theorem applied to two (syntactically distinct but
fieldwise identical) environments. -/
theorem C8_witness :
    get_final_investment_report envOk ["AAPL"] =
      get_final_investment_report
        { envOk with history := fun _ => .ok [100, 110, 121] } ["AAPL"] :=
  C8_pipeline_deterministic envOk _ ["AAPL"] rfl rfl rfl rfl rfl rfl rfl

lemma countResearcher_append (t1 t2 : List AgentCall) :
    countResearcher (t1 ++ t2) = countResearcher t1 + countResearcher t2 := by
  simp [countResearcher, List.filter_append]

lemma countStrategist_append (t1 t2 : List AgentCall) :
    countStrategist (t1 ++ t2) = countStrategist t1 + countStrategist t2 := by
  simp [countStrategist, List.filter_append]

lemma countTeamLead_append (t1 t2 : List AgentCall) :
    countTeamLead (t1 ++ t2) = countTeamLead t1 + countTeamLead t2 := by
  simp [countTeamLead, List.filter_append]

lemma get_market_analysis_trace_shape (env : Env) (symbols : List String) :
    (get_market_analysis env symbols).2 = [] ∨
    ∃ p, (get_market_analysis env symbols).2 = [AgentCall.market_analyst p] := by
  simp only [get_market_analysis]
  by_cases h : (compare_stocks env.history symbols).isEmpty = true
  · rw [if_pos h]
    exact Or.inl rfl
  · rw [if_neg h]
    cases env.market_analyst (marketPrompt (compare_stocks env.history symbols)) with
    | none => exact Or.inr ⟨_, rfl⟩
    | some c => exact Or.inr ⟨_, rfl⟩

lemma get_market_analysis_counts (env : Env) (symbols : List String) :
    countResearcher (get_market_analysis env symbols).2 = 0 ∧
    countStrategist (get_market_analysis env symbols).2 = 0 ∧
    countTeamLead (get_market_analysis env symbols).2 = 0 := by
  rcases get_market_analysis_trace_shape env symbols with h | ⟨p, h⟩ <;>
    rw [h] <;> exact ⟨rfl, rfl, rfl⟩

lemma get_company_analysis_success (env : Env) (s : String)
    (hi : ∃ r, env.info s = .ok r)
    (hn : ∀ m, env.news s ≠ .failure m)
    (hr : ∀ p, ∃ c, env.company_researcher p = some c) :
    ∃ a p, get_company_analysis env s = (.ok a, [.company_researcher p]) := by
  obtain ⟨r, hir⟩ := hi
  simp only [get_company_analysis, get_company_info, get_company_news, hir,
    Except.map]
  cases hns : env.news s with
  | items l =>
    dsimp only
    obtain ⟨c, hc⟩ := hr (researcherPrompt _ (l.take 5))
    rw [hc]
    exact ⟨_, _, rfl⟩
  | attrError =>
    dsimp only
    obtain ⟨c, hc⟩ := hr (researcherPrompt _ [])
    rw [hc]
    exact ⟨_, _, rfl⟩
  | failure m => exact absurd hns (hn m)

lemma company_analyses_list_success (env : Env)
    (hi : ∀ s, ∃ r, env.info s = .ok r)
    (hn : ∀ s m, env.news s ≠ .failure m)
    (hr : ∀ p, ∃ c, env.company_researcher p = some c) :
    ∀ l : List String, ∃ cas tr,
      company_analyses_list env l = (.ok cas, tr) ∧
      countResearcher tr = l.length ∧ countStrategist tr = 0 ∧
      countTeamLead tr = 0 := by
  intro l
  induction l with
  | nil => exact ⟨[], [], rfl, rfl, rfl, rfl⟩
  | cons s rest ih =>
    obtain ⟨a, p, ha⟩ := get_company_analysis_success env s (hi s) (hn s) hr
    obtain ⟨cas, tr, hrec, hc1, hc2, hc3⟩ := ih
    refine ⟨a :: cas, [AgentCall.company_researcher p] ++ tr, ?_, ?_, ?_, ?_⟩
    · simp only [company_analyses_list, ha, hrec]
    · rw [countResearcher_append, hc1]
      show 1 + rest.length = (s :: rest).length
      simp [Nat.add_comm]
    · rw [countStrategist_append, hc2]
      rfl
    · rw [countTeamLead_append, hc3]
      rfl

lemma recommendations_data_loop_success (env : Env)
    (hi : ∀ s, ∃ r, env.info s = .ok r)
    (hn : ∀ s m, env.news s ≠ .failure m)
    (hr : ∀ p, ∃ c, env.company_researcher p = some c) :
    ∀ (l : List String) (acc : List (String × String)), ∃ d tr,
      recommendations_data_loop env acc l = (.ok d, tr) ∧
      countResearcher tr = l.length ∧ countStrategist tr = 0 ∧
      countTeamLead tr = 0 := by
  intro l
  induction l with
  | nil => exact fun acc => ⟨acc, [], rfl, rfl, rfl, rfl⟩
  | cons s rest ih =>
    intro acc
    obtain ⟨a, p, ha⟩ := get_company_analysis_success env s (hi s) (hn s) hr
    obtain ⟨d, tr, hrec, hc1, hc2, hc3⟩ := ih (dictInsert acc s a)
    refine ⟨d, [AgentCall.company_researcher p] ++ tr, ?_, ?_, ?_, ?_⟩
    · simp only [recommendations_data_loop, ha, hrec]
    · rw [countResearcher_append, hc1]
      show 1 + rest.length = (s :: rest).length
      simp [Nat.add_comm]
    · rw [countStrategist_append, hc2]
      rfl
    · rw [countTeamLead_append, hc3]
      rfl

lemma get_stock_recommendations_success (env : Env) (symbols : List String)
    (hi : ∀ s, ∃ r, env.info s = .ok r)
    (hn : ∀ s m, env.news s ≠ .failure m)
    (hr : ∀ p, ∃ c, env.company_researcher p = some c)
    (hs : ∀ p, ∃ c, env.stock_strategist p = some c) :
    ∃ rec tr, get_stock_recommendations env symbols = (.ok rec, tr) ∧
      countResearcher tr = symbols.length ∧ countStrategist tr = 1 ∧
      countTeamLead tr = 0 := by
  obtain ⟨d, tr2, hloop, hc1, hc2, hc3⟩ :=
    recommendations_data_loop_success env hi hn hr symbols []
  obtain ⟨c, hc⟩ := hs (strategistPrompt (get_market_analysis env symbols).1 d)
  obtain ⟨g1, g2, g3⟩ := get_market_analysis_counts env symbols
  refine ⟨c, (get_market_analysis env symbols).2 ++ tr2 ++
    [AgentCall.stock_strategist
      (strategistPrompt (get_market_analysis env symbols).1 d)], ?_, ?_, ?_, ?_⟩
  · simp only [get_stock_recommendations, hloop]
    rw [hc]
  · rw [countResearcher_append, countResearcher_append, g1, hc1]
    show 0 + symbols.length + 0 = symbols.length
    omega
  · rw [countStrategist_append, countStrategist_append, g2, hc2]
    rfl
  · rw [countTeamLead_append, countTeamLead_append, g3, hc3]
    rfl

/-- C3 counterexample: with one valid ticker and every external call
answering, one run of `get_final_investment_report` issues 2 Company
Researcher calls, not 1 — the comprehension in the final-report function
and the loop inside `get_stock_recommendations` each call
`get_company_analysis` once per ticker. -/
theorem C3_counterexample :
    countResearcher (get_final_investment_report envOk ["AAPL"]).2 = 2 ∧
    countResearcher (get_final_investment_report envOk ["AAPL"]).2 ≠ 1 := by
  have h2 : countResearcher (get_final_investment_report envOk ["AAPL"]).2 = 2 := rfl
  exact ⟨h2, by rw [h2]; decide⟩

/-- C3 (amended): for a list of `n` tickers, a run in which every
info/news fetch succeeds and the Company Researcher and Stock Strategist
always answer invokes the Company Researcher exactly `2·n` times (`n` in
the final-report comprehension plus `n` inside
`get_stock_recommendations`), the Stock Strategist exactly once, and the
Team Lead (Report Composer) exactly once. -/
theorem C3_agent_invocation_counts (env : Env) (symbols : List String)
    (hi : ∀ s, ∃ r, env.info s = .ok r)
    (hn : ∀ s m, env.news s ≠ .failure m)
    (hr : ∀ p, ∃ c, env.company_researcher p = some c)
    (hs : ∀ p, ∃ c, env.stock_strategist p = some c) :
    countResearcher (get_final_investment_report env symbols).2 =
        2 * symbols.length ∧
    countStrategist (get_final_investment_report env symbols).2 = 1 ∧
    countTeamLead (get_final_investment_report env symbols).2 = 1 := by
  obtain ⟨cas, t2, hcas, a1, a2, a3⟩ := company_analyses_list_success env hi hn hr symbols
  obtain ⟨rec, t3, hrec, b1, b2, b3⟩ :=
    get_stock_recommendations_success env symbols hi hn hr hs
  obtain ⟨g1, g2, g3⟩ := get_market_analysis_counts env symbols
  simp only [get_final_investment_report, hcas, hrec]
  cases env.team_lead (teamLeadPrompt (get_market_analysis env symbols).1 cas rec) with
  | none =>
    refine ⟨?_, ?_, ?_⟩
    · rw [countResearcher_append, countResearcher_append, countResearcher_append,
        g1, a1, b1]
      show 0 + symbols.length + symbols.length + 0 = 2 * symbols.length
      omega
    · rw [countStrategist_append, countStrategist_append, countStrategist_append,
        g2, a2, b2]
      rfl
    · rw [countTeamLead_append, countTeamLead_append, countTeamLead_append,
        g3, a3, b3]
      rfl
  | some c =>
    refine ⟨?_, ?_, ?_⟩
    · rw [countResearcher_append, countResearcher_append, countResearcher_append,
        g1, a1, b1]
      show 0 + symbols.length + symbols.length + 0 = 2 * symbols.length
      omega
    · rw [countStrategist_append, countStrategist_append, countStrategist_append,
        g2, a2, b2]
      rfl
    · rw [countTeamLead_append, countTeamLead_append, countTeamLead_append,
        g3, a3, b3]
      rfl

/-- C3 witness: the amended counts at two concrete tickers — 4 Company
Researcher calls, 1 Stock Strategist call, 1 Team Lead call. -/
theorem C3_witness :
    countResearcher (get_final_investment_report envOk ["AAPL", "TSLA"]).2 = 4 ∧
    countStrategist (get_final_investment_report envOk ["AAPL", "TSLA"]).2 = 1 ∧
    countTeamLead (get_final_investment_report envOk ["AAPL", "TSLA"]).2 = 1 := by
  have h := C3_agent_invocation_counts envOk ["AAPL", "TSLA"]
    (fun s => ⟨_, rfl⟩) (fun s m h => by cases h) (fun p => ⟨_, rfl⟩)
    (fun p => ⟨_, rfl⟩)
  simpa using h

/-- Log severity used by the Ticker Resolver's `logger` calls. -/
inductive LogLevel where
  | info
  | warning
  | error

/-- Outcome of `requests.get` on the symbol-lookup service for one
company name: HTTP 200 with a parsed JSON match list (each match reduced
to its optional `"symbol"` field, `none` when the key is absent), a
non-200 status, or a raised transport error (which also covers a failing
`response.json()`). -/
inductive LookupResult where
  | success (data : List (Option String))
  | httpError (status : Nat)
  | transportError (msg : String)

/-- Python `str(...)` of an optional symbol as it appears in log lines
(`None` when absent). -/
def optionRepr : Option String → String
  | none => "None"
  | some s => s

/-- Python `s.split(",")` on the character list: split at every comma,
keeping empty segments (`"".split(",") == [""]`). -/
def splitOnComma : List Char → List (List Char)
  | [] => [[]]
  | c :: rest =>
    match splitOnComma rest with
    | [] => [[]]
    | g :: gs => if c = ',' then [] :: g :: gs else (c :: g) :: gs

/-- Python `s.strip()`: drop leading and trailing whitespace. -/
def pyStrip (s : List Char) : List Char :=
  ((s.dropWhile Char.isWhitespace).reverse.dropWhile Char.isWhitespace).reverse

/-- `company_list = [name.strip() for name in company_names.split(",")]`. -/
def companyList (company_names : String) : List String :=
  (splitOnComma company_names.data).map fun cs => String.mk (pyStrip cs)

/-- The loop body of `get_tickers_from_api` for one company name: the
appended ticker (``None`` on a miss, non-200 status or transport error;
the first match's optional `"symbol"` on a non-empty 200 response) and
the log lines emitted, in order. -/
def resolveTicker (lookup : String → LookupResult) (company_name : String) :
    Option String × List (LogLevel × String) :=
  let fetching :=
    (LogLevel.info, "Fetching ticker for company: " ++ company_name)
  match lookup company_name with
  | .success [] =>
    (none, [fetching,
      (LogLevel.warning, "No results found for company: " ++ company_name)])
  | .success (first :: _) =>
    (first, [fetching,
      (LogLevel.info, "Found ticker for company \x27" ++ company_name ++
        "\x27: " ++ optionRepr first)])
  | .httpError status =>
    (none, [fetching,
      (LogLevel.error, "Failed to fetch ticker for company \x27" ++
        company_name ++ "\x27. HTTP Status: " ++ toString status)])
  | .transportError msg =>
    (none, [fetching,
      (LogLevel.error, "Error fetching ticker for company \x27" ++
        company_name ++ "\x27: " ++ msg)])

/-- The `for company_name in company_list` loop: every iteration appends
exactly one ticker entry and its log lines. -/
def tickersLoop (lookup : String → LookupResult) :
    List String → List (Option String) × List (LogLevel × String)
  | [] => ([], [])
  | n :: rest =>
    let r := resolveTicker lookup n
    let rs := tickersLoop lookup rest
    (r.1 :: rs.1, r.2 ++ rs.2)

/-- `get_tickers_from_api(company_names)`: split on commas, strip each
name, resolve each name in order.  Returns the ticker list and the log
trace. -/
def get_tickers_from_api (lookup : String → LookupResult)
    (company_names : String) :
    List (Option String) × List (LogLevel × String) :=
  tickersLoop lookup (companyList company_names)

lemma tickersLoop_fst (lookup : String → LookupResult) :
    ∀ l : List String,
      (tickersLoop lookup l).1 = l.map fun n => (resolveTicker lookup n).1 := by
  intro l
  induction l with
  | nil => rfl
  | cons n rest ih => simp [tickersLoop, ih]

lemma tickersLoop_snd_mem (lookup : String → LookupResult) :
    ∀ (l : List String) (n : String), n ∈ l →
      ∀ entry ∈ (resolveTicker lookup n).2, entry ∈ (tickersLoop lookup l).2 := by
  intro l
  induction l with
  | nil => intro n hn; simp at hn
  | cons m rest ih =>
    intro n hn entry hentry
    rcases List.mem_cons.mp hn with rfl | hn
    · simp only [tickersLoop, List.mem_append]
      exact Or.inl hentry
    · simp only [tickersLoop, List.mem_append]
      exact Or.inr (ih n hn entry hentry)

lemma get_tickers_getD (lookup : String → LookupResult) (names : String)
    (i : ℕ) (h : i < (companyList names).length) :
    (get_tickers_from_api lookup names).1.getD i none =
      (resolveTicker lookup ((companyList names).getD i "")).1 := by
  rw [get_tickers_from_api, tickersLoop_fst, List.getD_eq_getElem?_getD,
    List.getElem?_map, List.getElem?_eq_getElem h,
    List.getD_eq_getElem?_getD, List.getElem?_eq_getElem h]
  rfl

/-- C5: for a comma-separated input of company names,
`get_tickers_from_api` returns exactly one entry per name, in input
order: position `i` holds the first match's symbol field when the lookup
for name `i` returns HTTP 200 with a non-empty result, and `None` when
the result is empty, the status is non-200, or a transport error occurs
— a per-name failure never aborts the rest of the batch. -/
theorem C5_ticker_resolver_positional (lookup : String → LookupResult)
    (company_names : String) :
    (get_tickers_from_api lookup company_names).1.length =
      (companyList company_names).length ∧
    ∀ i : ℕ, i < (companyList company_names).length →
      (∀ (first : Option String) (rest : List (Option String)),
        lookup ((companyList company_names).getD i "") =
            .success (first :: rest) →
        (get_tickers_from_api lookup company_names).1.getD i none = first) ∧
      (lookup ((companyList company_names).getD i "") = .success [] →
        (get_tickers_from_api lookup company_names).1.getD i none = none) ∧
      (∀ status : Nat,
        lookup ((companyList company_names).getD i "") = .httpError status →
        (get_tickers_from_api lookup company_names).1.getD i none = none) ∧
      (∀ msg : String,
        lookup ((companyList company_names).getD i "") = .transportError msg →
        (get_tickers_from_api lookup company_names).1.getD i none = none) := by
  constructor
  · rw [get_tickers_from_api, tickersLoop_fst, List.length_map]
  · intro i h
    refine ⟨?_, ?_, ?_, ?_⟩
    · intro first rest hl
      rw [get_tickers_getD lookup company_names i h]
      simp only [resolveTicker]
      rw [hl]
    · intro hl
      rw [get_tickers_getD lookup company_names i h]
      simp only [resolveTicker]
      rw [hl]
    · intro status hl
      rw [get_tickers_getD lookup company_names i h]
      simp only [resolveTicker]
      rw [hl]
    · intro msg hl
      rw [get_tickers_getD lookup company_names i h]
      simp only [resolveTicker]
      rw [hl]

/-- A lookup service for the witness: resolves Apple and Tesla, finds
nothing for anyone else. -/
def lookupEx : String → LookupResult := fun name =>
  if name = "Apple" then .success [some "AAPL"]
  else if name = "Tesla" then .success [some "TSLA"]
  else .success []

/-- C5 witness: `"Apple, Unknownxyz, Tesla"` with only Apple and Tesla
resolvable yields `["AAPL", None, "TSLA"]` positionally. -/
theorem C5_witness :
    (get_tickers_from_api lookupEx "Apple, Unknownxyz, Tesla").1.length = 3 ∧
    (get_tickers_from_api lookupEx "Apple, Unknownxyz, Tesla").1.getD 0 none =
      some "AAPL" ∧
    (get_tickers_from_api lookupEx "Apple, Unknownxyz, Tesla").1.getD 1 none =
      none ∧
    (get_tickers_from_api lookupEx "Apple, Unknownxyz, Tesla").1.getD 2 none =
      some "TSLA" := by
  have hcl : companyList "Apple, Unknownxyz, Tesla" =
      ["Apple", "Unknownxyz", "Tesla"] := by decide
  have h := C5_ticker_resolver_positional lookupEx "Apple, Unknownxyz, Tesla"
  have hlen : (companyList "Apple, Unknownxyz, Tesla").length = 3 := by
    rw [hcl]
    rfl
  refine ⟨by rw [h.1, hlen], ?_, ?_, ?_⟩
  · exact (h.2 0 (by rw [hlen]; decide)).1 (some "AAPL") []
      (by rw [hcl]; rfl)
  · exact (h.2 1 (by rw [hlen]; decide)).2.1 (by rw [hcl]; rfl)
  · exact (h.2 2 (by rw [hlen]; decide)).1 (some "TSLA") []
      (by rw [hcl]; rfl)

/-- C9: on HTTP 200 with a non-empty match list whose first element has
no `"symbol"` field, `None` is appended on the success path while the
success info log line (ending in `None`) is still emitted. -/
theorem C9_none_symbol_on_success_path (lookup : String → LookupResult)
    (names : String) (i : ℕ) (rest : List (Option String))
    (h : i < (companyList names).length)
    (hlook : lookup ((companyList names).getD i "") = .success (none :: rest)) :
    (get_tickers_from_api lookup names).1.getD i none = none ∧
    (LogLevel.info, "Found ticker for company \x27" ++
        (companyList names).getD i "" ++ "\x27: " ++ "None") ∈
      (get_tickers_from_api lookup names).2 := by
  constructor
  · rw [get_tickers_getD lookup names i h]
    simp only [resolveTicker]
    rw [hlook]
  · have hmem : (companyList names).getD i "" ∈ companyList names := by
      rw [List.getD_eq_getElem?_getD, List.getElem?_eq_getElem h]
      exact List.getElem_mem h
    apply tickersLoop_snd_mem lookup (companyList names) _ hmem
    simp only [resolveTicker]
    rw [hlook]
    simp [optionRepr]

/-- C9 witness: a service whose only match lacks a symbol field — the
resolved entry is `None` yet the success log line is present. -/
theorem C9_witness :
    (get_tickers_from_api (fun _ => .success [none]) "Apple").1.getD 0 none =
      none ∧
    (LogLevel.info, "Found ticker for company \x27" ++
        (companyList "Apple").getD 0 "" ++ "\x27: " ++ "None") ∈
      (get_tickers_from_api (fun _ => .success [none]) "Apple").2 :=
  C9_none_symbol_on_success_path (fun _ => .success [none]) "Apple" 0 []
    (by decide) rfl

/-- C7 counterexample: an exception while fetching the company profile
(`stock.info` inside `get_company_info`) is NOT caught — it propagates
out of `get_company_analysis` and aborts the whole report run, refuting
the claim that every per-item failure during data gathering is swallowed
with processing continuing. -/
theorem C7_counterexample :
    (get_company_analysis { envOk with info := fun _ => .error "boom" }
        "AAPL").1 = .error "boom" ∧
    (get_final_investment_report { envOk with info := fun _ => .error "boom" }
        ["AAPL", "TSLA"]).1 = .error "boom" :=
  ⟨rfl, rfl⟩

/-- C7 (amended): per-symbol exceptions are swallowed only where the
code catches them — a price-history fetch exception skips that symbol in
`compare_stocks`, and `get_company_news` catches exactly
`AttributeError` (returning `[]`); an exception from the profile fetch
(`get_company_info`) or any non-`AttributeError` exception from the news
fetch propagates and aborts the company analysis. -/
theorem C7_data_gathering_exception_policy :
    (∀ (fetch : String → Except String (List ℚ)) (s e : String)
        (rest : List String), fetch s = .error e →
      compare_stocks fetch (s :: rest) = compare_stocks fetch rest) ∧
    (∀ (env : Env) (s : String), env.news s = .attrError →
      get_company_news env s = .ok []) ∧
    (∀ (env : Env) (s e : String), env.info s = .error e →
      get_company_analysis env s = (.error e, [])) ∧
    (∀ (env : Env) (s e : String) (r : RawInfo), env.info s = .ok r →
      env.news s = .failure e →
      get_company_analysis env s = (.error e, [])) := by
  refine ⟨?_, ?_, ?_, ?_⟩
  · intro fetch s e rest h
    simp only [compare_stocks, compare_stocks_go, h]
  · intro env s h
    simp only [get_company_news, h]
  · intro env s e h
    simp only [get_company_analysis, get_company_info, h, Except.map]
  · intro env s e r hi hn
    simp only [get_company_analysis, get_company_info, get_company_news, hi, hn,
      Except.map]

/-- C7 witness: the amended policy at concrete environments — history
exception skipped, news `AttributeError` yields `[]`, profile exception
and non-`AttributeError` news exception abort the company analysis. -/
theorem C7_witness :
    compare_stocks (fun _ => .error "boom") ["AAPL", "TSLA"] =
      compare_stocks (fun _ => .error "boom") ["TSLA"] ∧
    get_company_news { envOk with news := fun _ => .attrError } "AAPL" =
      .ok [] ∧
    get_company_analysis { envOk with info := fun _ => .error "boom" } "TSLA" =
      (.error "boom", []) ∧
    get_company_analysis { envOk with news := fun _ => .failure "netfail" }
        "AAPL" = (.error "netfail", []) :=
  ⟨C7_data_gathering_exception_policy.1 _ "AAPL" "boom" ["TSLA"] rfl,
   C7_data_gathering_exception_policy.2.1 _ "AAPL" rfl,
   C7_data_gathering_exception_policy.2.2.1 _ "TSLA" "boom" rfl,
   C7_data_gathering_exception_policy.2.2.2 _ "AAPL" "netfail" _ rfl rfl⟩
